import Mathlib

/-!
Verification of the Bitaxe Flatline Monitor (bitaxe_monitor.py) against its
natural-language specification.

The development shallowly embeds the parts of the script that the claims
concern:

* the SGR-color regex `ansi_escape` and its `sub` operation (source line 34
  and `log_output`, lines 64-69): `ansi_escape_sub` below reproduces the
  single left-to-right pass of Python `re.sub` for the pattern
  ESC LBRACKET [0-9;]* m;
* `log_output` (lines 64-69) as a pure function returning its observable
  effects (the stdout line and the optional file append);
* `send_discord_alert` (lines 94-98) as a function on the outcome of the
  HTTP POST, returning `Except` to show that no exception escapes;
* the body of the infinite `while True` loop of `monitor_bitaxe`
  (lines 134-206) as a step function `monitor_bitaxe_step` on the loop
  state (`prev_shares`, `restart_count`), taking the outcome of the status
  GET and (when consulted) of the restart POST as oracle inputs, and
  returning the new state, the number of restart POSTs issued, the argument
  passed to `countdown_timer`, and the ordered list of log / webhook events.

Network calls, wall-clock timestamps and the filesystem are modelled as
oracle inputs and event outputs; the numeric display rounding of Python
(float `math.ceil(h*10)/10` and `round(t, 1)`) is modelled on exact
rationals.
-/

namespace BitaxeMonitor

/-! ### Definitions -/

/-- Consume the `[0-9;]*m` tail of the ANSI pattern: on success return the
characters after the terminating `m`. Since the character class excludes
`m`, the greedy run with backtracking of the regex engine is equivalent to
this linear scan. -/
def ansi_escape_body : List Char → Option (List Char)
  | [] => none
  | c :: cs =>
    if c = 'm' then some cs
    else if c.isDigit ∨ c = ';' then ansi_escape_body cs
    else none

/-- Try to match the whole pattern of source line 34 at the head of the
list: ESC, LBRACKET, digits or semicolons, `m`. On success return the
characters after the match. -/
def ansi_escape_match : List Char → Option (List Char)
  | c1 :: c2 :: rest =>
    if c1 = '\x1b' then
      if c2 = '[' then ansi_escape_body rest else none
    else none
  | _ => none

/-- Recursion core of the substitution, structurally recursive on a fuel
argument; one unit of fuel is spent per scanning step, and a step always
drops at least one character, so fuel equal to the length of the list is
enough. -/
def ansi_escape_sub_go (fuel : Nat) (s : List Char) : List Char :=
  match fuel, s with
  | _, [] => []
  | 0, s => s
  | fuel + 1, c :: cs =>
    match ansi_escape_match (c :: cs) with
    | some rest => ansi_escape_sub_go fuel rest
    | none => c :: ansi_escape_sub_go fuel cs

/-- Python `ansi_escape.sub(emptystring, line)`: a single left-to-right pass
replacing each leftmost non-overlapping match by nothing; at a position with
no match, the character is kept and scanning resumes one character later. -/
def ansi_escape_sub (s : List Char) : List Char :=
  ansi_escape_sub_go s.length s

/-- Recursion core of the well-formedness check, with the same fuel
discipline as the substitution. -/
def ansi_well_formed_go (fuel : Nat) (s : List Char) : Bool :=
  match fuel, s with
  | _, [] => true
  | 0, _ => false
  | fuel + 1, c :: cs =>
    if c = '\x1b' then
      match ansi_escape_match (c :: cs) with
      | some rest => ansi_well_formed_go fuel rest
      | none => false
    else ansi_well_formed_go fuel cs

/-- A line is well formed when every ESC character in it begins a complete
SGR color sequence. Every line the monitor itself builds from its color
constants is of this shape. -/
def ansi_well_formed (s : List Char) : Bool :=
  ansi_well_formed_go s.length s

/-- Observable effect of one `log_output` call: the line printed to stdout,
and the content appended to the log file when one is configured.
Appending is the only file mutation the function performs. -/
structure LogEffect where
  stdout : List Char
  fileAppend : Option (List Char)
  deriving DecidableEq

/-- Source lines 64-69: print the line as given; when a logfile is
configured, append the ANSI-stripped line followed by a newline. -/
def log_output (line : List Char) (logfile : Bool) : LogEffect :=
  { stdout := line
    fileAppend := if logfile then some (ansi_escape_sub line ++ ['\n']) else none }

/-- Oracle outcome of `requests.post` to the webhook URL: a response with a
status code, or a raised exception carrying a message. -/
inductive PostOutcome where
  | resp (code : Nat)
  | raised (msg : String)
  deriving DecidableEq

/-- Source line 96: the bare POST, which raises (returns `Except.error`)
exactly when the network call raises. -/
def webhook_post (o : PostOutcome) : Except String Nat :=
  match o with
  | PostOutcome.resp code => Except.ok code
  | PostOutcome.raised msg => Except.error msg

/-- Source lines 94-98: try the POST; on any exception print a warning
locally and return normally. The returned value lists the lines the call
printed; the `Except` layer is the exception behaviour visible to the
caller. -/
def send_discord_alert (o : PostOutcome) : Except String (List String) :=
  match webhook_post o with
  | Except.ok _ => Except.ok []
  | Except.error e => Except.ok ["Discord alert failed: " ++ e]

/-- Fields of the JSON object returned by the status endpoint; `none` means
the field is absent from the response. Numeric JSON values are modelled as
exact rationals. -/
structure PollData where
  hostname : Option String
  hashRate : Option ℚ
  temp : Option ℚ
  vrTemp : Option ℚ
  sharesAccepted : Option Int
  uptimeSeconds : Option Int
  deriving DecidableEq

/-- Display values extracted from a successful poll (source lines 141-161).
An `Option` that is `none` renders as the unknown sentinel N/A. -/
structure Extracted where
  hostname : String
  hashrate : Option ℚ
  asic_temp : Option ℚ
  vr_temp : Option ℚ
  shares : Int
  uptime : Option Int
  deriving DecidableEq

/-- Source lines 141-161: extract fields with defaults. A missing hostname
renders as N/A; a present hashRate is ceiled to one decimal (Python
`math.ceil(h*10)/10`, modelled on rationals) and a missing one is N/A;
a present temp is rounded to one decimal (Python `round(t, 1)`, whose
half-to-even tie behaviour on floats is modelled as nearest-integer
rounding on rationals) and a missing one is N/A; vrTemp is used as is, N/A
when missing; a missing sharesAccepted defaults to 0; uptime is formatted
from uptimeSeconds, N/A when missing. -/
def extract_status_fields (d : PollData) : Extracted :=
  { hostname := d.hostname.getD "N/A"
    hashrate := d.hashRate.map (fun h => (Int.ceil (h * 10) : ℚ) / 10)
    asic_temp := d.temp.map (fun t => (round (t * 10) : ℚ) / 10)
    vr_temp := d.vrTemp
    shares := d.sharesAccepted.getD 0
    uptime := d.uptimeSeconds }

/-- Loop state of `monitor_bitaxe` (source lines 119-120): the share count
recorded by the last successful poll, if any, and the restart counter. -/
structure MonitorState where
  prev_shares : Option Int
  restart_count : Nat
  deriving DecidableEq

/-- Initial loop state (source lines 119-120): no observation yet, zero
restarts. -/
def monitor_bitaxe_init : MonitorState :=
  { prev_shares := none, restart_count := 0 }

/-- Oracle outcome of the status GET of one cycle (source lines 137-139):
either a JSON document, or a requests exception (network error, timeout, or
a non-2xx status raised by raise_for_status). -/
inductive PollOutcome where
  | success (d : PollData)
  | failure
  deriving DecidableEq

/-- Oracle outcome of the restart POST (source line 180), consulted only in
cycles that issue one: a response with a status code, or a raised network
error. -/
inductive RestartOutcome where
  | status (code : Nat)
  | netError
  deriving DecidableEq

/-- Oracle inputs of one loop iteration. -/
structure CycleInput where
  poll : PollOutcome
  restartResult : RestartOutcome
  deriving DecidableEq

/-- Observable events of one loop iteration, in program order. Each
constructor stands for one `log_output` or `send_discord_alert` call site:
statusLine is the formatted status line (line 172), initialLog line 195,
stallLog line 176 and alertStall line 178, restartOkLog line 183 and
alertRestartOk line 185, restartFailLog line 187 and alertRestartFail
line 189, restartErrLog line 191 and alertRestartErr line 193, commErrLog
line 200 and alertCommErr line 202. -/
inductive Event where
  | statusLine (ex : Extracted) (restarts : Nat)
  | initialLog
  | stallLog
  | alertStall
  | restartOkLog
  | alertRestartOk
  | restartFailLog (code : Nat)
  | alertRestartFail (code : Nat)
  | restartErrLog
  | alertRestartErr
  | commErrLog
  | alertCommErr
  deriving DecidableEq

/-- Result of one loop iteration: the state carried to the next iteration,
how many restart POSTs were issued, the number of seconds handed to
`countdown_timer` before the next poll, the value of the
`wait_after_restart` flag at the end of the iteration, and the emitted
events. -/
structure CycleResult where
  state : MonitorState
  restartAttempts : Nat
  wait : Nat
  wait_after_restart : Bool
  events : List Event
  deriving DecidableEq

/-- One iteration of the `while True` body of `monitor_bitaxe`
(source lines 134-206). The local `wa` mirrors `wait_after_restart`, set to
False at the top of every iteration (line 135) and never set to True by any
statement, so the final wait (line 206) is 60 if the flag is set, else the
interval. On a requests exception the handler (lines 199-204) logs,
optionally alerts, waits 10 seconds and continues, leaving the state
untouched. On a successful poll the status line is logged, the stall check
against the recorded share count runs (lines 174-195), and line 197 records
the current share count in every case. -/
def monitor_bitaxe_step (interval : Nat) (discord : Bool) (s : MonitorState)
    (inp : CycleInput) : CycleResult :=
  let wa := false
  match inp.poll with
  | PollOutcome.failure =>
    { state := s
      restartAttempts := 0
      wait := 10
      wait_after_restart := wa
      events := Event.commErrLog :: (if discord then [Event.alertCommErr] else []) }
  | PollOutcome.success d =>
    let ex := extract_status_fields d
    let shares := ex.shares
    let base : List Event := [Event.statusLine ex s.restart_count]
    let inner : Nat × Nat × List Event :=
      match s.prev_shares with
      | none => (s.restart_count, 0, [Event.initialLog])
      | some prev =>
        if shares = prev then
          let stallEvs : List Event :=
            Event.stallLog :: (if discord then [Event.alertStall] else [])
          match inp.restartResult with
          | RestartOutcome.status code =>
            if code = 200 then
              (s.restart_count + 1, 1, stallEvs ++
                Event.restartOkLog :: (if discord then [Event.alertRestartOk] else []))
            else
              (s.restart_count, 1, stallEvs ++
                Event.restartFailLog code ::
                  (if discord then [Event.alertRestartFail code] else []))
          | RestartOutcome.netError =>
            (s.restart_count, 1, stallEvs ++
              Event.restartErrLog :: (if discord then [Event.alertRestartErr] else []))
        else (s.restart_count, 0, [])
    { state := { prev_shares := some shares, restart_count := inner.1 }
      restartAttempts := inner.2.1
      wait := if wa then 60 else interval
      wait_after_restart := wa
      events := base ++ inner.2.2 }

/-- Iterating the loop body over a list of cycle inputs: final state and
total number of restart POSTs issued. -/
def monitor_bitaxe_run (interval : Nat) (discord : Bool) :
    MonitorState → List CycleInput → MonitorState × Nat
  | s, [] => (s, 0)
  | s, inp :: rest =>
    let r := monitor_bitaxe_step interval discord s inp
    let tail := monitor_bitaxe_run interval discord r.state rest
    (tail.1, r.restartAttempts + tail.2)

/-- Share count a cycle input would report: the extracted sharesAccepted of
a successful poll, none for a failed one. -/
def input_shares (inp : CycleInput) : Option Int :=
  match inp.poll with
  | PollOutcome.success d => some (extract_status_fields d).shares
  | PollOutcome.failure => none

/-- All cycles are successful polls and the reported share counts strictly
increase from each cycle to the next; the first parameter carries the share
count recorded before the sequence, if any, which must lie below the first
cycle. -/
def increasing_success_run : Option Int → List CycleInput → Bool
  | _, [] => true
  | prev, inp :: rest =>
    match input_shares inp with
    | none => false
    | some a =>
      (match prev with
       | none => true
       | some p => decide (p < a)) && increasing_success_run (some a) rest

/-! ### Lemmas about the ANSI substitution -/

theorem ansi_escape_body_length :
    ∀ (cs r : List Char), ansi_escape_body cs = some r → r.length < cs.length := by
  intro cs
  induction cs with
  | nil => intro r h; simp [ansi_escape_body] at h
  | cons c cs ih =>
    intro r h
    simp only [ansi_escape_body] at h
    split at h
    · cases h; simp
    · split at h
      · have := ih r h
        simp only [List.length_cons]
        omega
      · cases h

theorem ansi_escape_match_length :
    ∀ (s r : List Char), ansi_escape_match s = some r → r.length < s.length := by
  intro s r h
  match s with
  | [] => simp [ansi_escape_match] at h
  | [c1] => simp [ansi_escape_match] at h
  | c1 :: c2 :: rest =>
    simp only [ansi_escape_match] at h
    split at h
    · split at h
      · have := ansi_escape_body_length rest r h
        simp only [List.length_cons]
        omega
      · cases h
    · cases h

theorem ansi_escape_match_of_ne :
    ∀ (c : Char) (cs : List Char), c ≠ '\x1b' → ansi_escape_match (c :: cs) = none := by
  intro c cs hc
  match cs with
  | [] => simp [ansi_escape_match]
  | c2 :: rest => simp [ansi_escape_match, hc]

theorem ansi_escape_sub_go_eq :
    ∀ (f1 : Nat) (s : List Char) (f2 : Nat), s.length ≤ f1 → s.length ≤ f2 →
      ansi_escape_sub_go f1 s = ansi_escape_sub_go f2 s := by
  intro f1
  induction f1 with
  | zero =>
    intro s f2 h1 _
    have hs : s = [] := List.eq_nil_of_length_eq_zero (Nat.le_zero.mp h1)
    subst hs
    cases f2 <;> rfl
  | succ f ih =>
    intro s f2 h1 h2
    match s with
    | [] => cases f2 <;> rfl
    | c :: cs =>
      match f2, h2 with
      | f2 + 1, h2 =>
        simp only [ansi_escape_sub_go]
        cases hm : ansi_escape_match (c :: cs) with
        | some rest =>
          have hlen := ansi_escape_match_length _ _ hm
          simp only [List.length_cons] at h1 h2 hlen
          exact ih rest f2 (by omega) (by omega)
        | none =>
          simp only [List.length_cons] at h1 h2
          rw [ih cs f2 (by omega) (by omega)]

theorem ansi_escape_sub_nil : ansi_escape_sub [] = [] := rfl

theorem ansi_escape_sub_cons_some {c : Char} {cs rest : List Char}
    (h : ansi_escape_match (c :: cs) = some rest) :
    ansi_escape_sub (c :: cs) = ansi_escape_sub rest := by
  have hlen := ansi_escape_match_length _ _ h
  simp only [List.length_cons] at hlen
  show ansi_escape_sub_go (cs.length + 1) (c :: cs) = _
  simp only [ansi_escape_sub_go]
  rw [h]
  exact ansi_escape_sub_go_eq cs.length rest rest.length (by omega) (le_refl _)

theorem ansi_escape_sub_cons_none {c : Char} {cs : List Char}
    (h : ansi_escape_match (c :: cs) = none) :
    ansi_escape_sub (c :: cs) = c :: ansi_escape_sub cs := by
  show ansi_escape_sub_go (cs.length + 1) (c :: cs) = _
  simp only [ansi_escape_sub_go]
  rw [h]
  rfl

theorem ansi_well_formed_go_eq :
    ∀ (f1 : Nat) (s : List Char) (f2 : Nat), s.length ≤ f1 → s.length ≤ f2 →
      ansi_well_formed_go f1 s = ansi_well_formed_go f2 s := by
  intro f1
  induction f1 with
  | zero =>
    intro s f2 h1 _
    have hs : s = [] := List.eq_nil_of_length_eq_zero (Nat.le_zero.mp h1)
    subst hs
    cases f2 <;> rfl
  | succ f ih =>
    intro s f2 h1 h2
    match s with
    | [] => cases f2 <;> rfl
    | c :: cs =>
      match f2, h2 with
      | f2 + 1, h2 =>
        simp only [ansi_well_formed_go]
        by_cases hcesc : c = '\x1b'
        · rw [if_pos hcesc, if_pos hcesc]
          cases hm : ansi_escape_match (c :: cs) with
          | some rest =>
            have hlen := ansi_escape_match_length _ _ hm
            simp only [List.length_cons] at h1 h2 hlen
            exact ih rest f2 (by omega) (by omega)
          | none => rfl
        · rw [if_neg hcesc, if_neg hcesc]
          simp only [List.length_cons] at h1 h2
          exact ih cs f2 (by omega) (by omega)

theorem ansi_well_formed_cons_some {c : Char} {cs rest : List Char}
    (hc : c = '\x1b') (h : ansi_escape_match (c :: cs) = some rest) :
    ansi_well_formed (c :: cs) = ansi_well_formed rest := by
  have hlen := ansi_escape_match_length _ _ h
  simp only [List.length_cons] at hlen
  show ansi_well_formed_go (cs.length + 1) (c :: cs) = _
  simp only [ansi_well_formed_go]
  rw [if_pos hc, h]
  exact ansi_well_formed_go_eq cs.length rest rest.length (by omega) (le_refl _)

theorem ansi_well_formed_cons_none {c : Char} {cs : List Char}
    (hc : c = '\x1b') (h : ansi_escape_match (c :: cs) = none) :
    ansi_well_formed (c :: cs) = false := by
  show ansi_well_formed_go (cs.length + 1) (c :: cs) = _
  simp only [ansi_well_formed_go]
  rw [if_pos hc, h]

theorem ansi_well_formed_cons_ne {c : Char} {cs : List Char} (hc : c ≠ '\x1b') :
    ansi_well_formed (c :: cs) = ansi_well_formed cs := by
  show ansi_well_formed_go (cs.length + 1) (c :: cs) = _
  simp only [ansi_well_formed_go]
  rw [if_neg hc]
  rfl

theorem ansi_sub_no_esc_aux :
    ∀ (n : Nat) (s : List Char), s.length = n →
      ansi_well_formed s = true → '\x1b' ∉ ansi_escape_sub s := by
  intro n
  induction n using Nat.strong_induction_on with
  | _ n ih =>
    intro s hn hwf
    match s with
    | [] =>
      rw [ansi_escape_sub_nil]
      exact List.not_mem_nil _
    | c :: cs =>
      by_cases hc : c = '\x1b'
      · cases hmatch : ansi_escape_match (c :: cs) with
        | none =>
          rw [ansi_well_formed_cons_none hc hmatch] at hwf
          exact Bool.noConfusion hwf
        | some rest =>
          rw [ansi_well_formed_cons_some hc hmatch] at hwf
          rw [ansi_escape_sub_cons_some hmatch]
          have hlen := ansi_escape_match_length _ _ hmatch
          exact ih rest.length (by omega) rest rfl hwf
      · rw [ansi_well_formed_cons_ne hc] at hwf
        rw [ansi_escape_sub_cons_none (ansi_escape_match_of_ne c cs hc)]
        intro hmem
        rcases List.mem_cons.mp hmem with h1 | h2
        · exact hc h1.symm
        · have hcs : cs.length < n := by
            rw [← hn]; simp
          exact ih cs.length hcs cs rfl hwf h2

/-- On a well-formed line, the substitution removes every ESC character, so
the result contains no ANSI escape sequence of any kind. -/
theorem ansi_sub_no_esc (s : List Char) (hwf : ansi_well_formed s = true) :
    '\x1b' ∉ ansi_escape_sub s :=
  ansi_sub_no_esc_aux s.length s rfl hwf

/-- On a line containing no ESC character the substitution is the identity. -/
theorem ansi_sub_of_no_esc :
    ∀ (s : List Char), '\x1b' ∉ s → ansi_escape_sub s = s := by
  intro s
  induction s with
  | nil => intro _; exact ansi_escape_sub_nil
  | cons c cs ih =>
    intro hmem
    have hc : c ≠ '\x1b' := fun h => hmem (h ▸ List.mem_cons_self c cs)
    rw [ansi_escape_sub_cons_none (ansi_escape_match_of_ne c cs hc)]
    have : '\x1b' ∉ cs := fun h => hmem (List.mem_cons_of_mem c h)
    rw [ih this]

/-! ### Branch equations for the loop step -/

theorem monitor_step_fail_eq (interval : Nat) (discord : Bool) (s : MonitorState)
    (ro : RestartOutcome) :
    monitor_bitaxe_step interval discord s ⟨PollOutcome.failure, ro⟩ =
      { state := s
        restartAttempts := 0
        wait := 10
        wait_after_restart := false
        events := Event.commErrLog :: (if discord then [Event.alertCommErr] else []) } :=
  rfl

theorem monitor_step_first_eq (interval : Nat) (discord : Bool) (s : MonitorState)
    (d : PollData) (ro : RestartOutcome) (hprev : s.prev_shares = none) :
    monitor_bitaxe_step interval discord s ⟨PollOutcome.success d, ro⟩ =
      { state := { prev_shares := some (extract_status_fields d).shares
                   restart_count := s.restart_count }
        restartAttempts := 0
        wait := interval
        wait_after_restart := false
        events := [Event.statusLine (extract_status_fields d) s.restart_count,
                   Event.initialLog] } := by
  obtain ⟨ps, rc⟩ := s
  cases ps with
  | none => rfl
  | some q => exact Option.noConfusion hprev

theorem monitor_step_newshares_eq (interval : Nat) (discord : Bool) (s : MonitorState)
    (d : PollData) (ro : RestartOutcome) (p : Int) (hprev : s.prev_shares = some p)
    (hne : (extract_status_fields d).shares ≠ p) :
    monitor_bitaxe_step interval discord s ⟨PollOutcome.success d, ro⟩ =
      { state := { prev_shares := some (extract_status_fields d).shares
                   restart_count := s.restart_count }
        restartAttempts := 0
        wait := interval
        wait_after_restart := false
        events := [Event.statusLine (extract_status_fields d) s.restart_count] } := by
  obtain ⟨ps, rc⟩ := s
  cases ps with
  | none => exact Option.noConfusion hprev
  | some q =>
    have hq : q = p := Option.some.inj hprev
    subst hq
    simp only [monitor_bitaxe_step]
    rw [if_neg hne]
    rfl

theorem monitor_step_stall_ok_eq (interval : Nat) (discord : Bool) (s : MonitorState)
    (d : PollData) (p : Int) (hprev : s.prev_shares = some p)
    (heq : (extract_status_fields d).shares = p) :
    monitor_bitaxe_step interval discord s ⟨PollOutcome.success d, RestartOutcome.status 200⟩ =
      { state := { prev_shares := some (extract_status_fields d).shares
                   restart_count := s.restart_count + 1 }
        restartAttempts := 1
        wait := interval
        wait_after_restart := false
        events := [Event.statusLine (extract_status_fields d) s.restart_count] ++
          ((Event.stallLog :: (if discord then [Event.alertStall] else [])) ++
            Event.restartOkLog :: (if discord then [Event.alertRestartOk] else [])) } := by
  obtain ⟨ps, rc⟩ := s
  cases ps with
  | none => exact Option.noConfusion hprev
  | some q =>
    have hq : q = p := Option.some.inj hprev
    subst hq
    simp only [monitor_bitaxe_step]
    rw [if_pos heq]
    rfl

theorem monitor_step_stall_failcode_eq (interval : Nat) (discord : Bool)
    (s : MonitorState) (d : PollData) (p : Int) (code : Nat)
    (hprev : s.prev_shares = some p) (heq : (extract_status_fields d).shares = p)
    (hcode : code ≠ 200) :
    monitor_bitaxe_step interval discord s
        ⟨PollOutcome.success d, RestartOutcome.status code⟩ =
      { state := { prev_shares := some (extract_status_fields d).shares
                   restart_count := s.restart_count }
        restartAttempts := 1
        wait := interval
        wait_after_restart := false
        events := [Event.statusLine (extract_status_fields d) s.restart_count] ++
          ((Event.stallLog :: (if discord then [Event.alertStall] else [])) ++
            Event.restartFailLog code ::
              (if discord then [Event.alertRestartFail code] else [])) } := by
  obtain ⟨ps, rc⟩ := s
  cases ps with
  | none => exact Option.noConfusion hprev
  | some q =>
    have hq : q = p := Option.some.inj hprev
    subst hq
    simp only [monitor_bitaxe_step]
    rw [if_pos heq]
    simp only [if_neg hcode]
    rfl

theorem monitor_step_stall_neterr_eq (interval : Nat) (discord : Bool)
    (s : MonitorState) (d : PollData) (p : Int)
    (hprev : s.prev_shares = some p) (heq : (extract_status_fields d).shares = p) :
    monitor_bitaxe_step interval discord s
        ⟨PollOutcome.success d, RestartOutcome.netError⟩ =
      { state := { prev_shares := some (extract_status_fields d).shares
                   restart_count := s.restart_count }
        restartAttempts := 1
        wait := interval
        wait_after_restart := false
        events := [Event.statusLine (extract_status_fields d) s.restart_count] ++
          ((Event.stallLog :: (if discord then [Event.alertStall] else [])) ++
            Event.restartErrLog :: (if discord then [Event.alertRestartErr] else [])) } := by
  obtain ⟨ps, rc⟩ := s
  cases ps with
  | none => exact Option.noConfusion hprev
  | some q =>
    have hq : q = p := Option.some.inj hprev
    subst hq
    simp only [monitor_bitaxe_step]
    rw [if_pos heq]
    rfl

/-! ### Invariant lemma for strictly increasing share sequences -/

theorem increasing_run_no_restart_aux (interval : Nat) (discord : Bool) :
    ∀ (inputs : List CycleInput) (o : Option Int) (s : MonitorState),
      s.prev_shares = o → increasing_success_run o inputs = true →
      (monitor_bitaxe_run interval discord s inputs).2 = 0 := by
  intro inputs
  induction inputs with
  | nil =>
    intro o s _ _
    rfl
  | cons inp rest ih =>
    intro o s hs hincr
    obtain ⟨poll, ro⟩ := inp
    cases poll with
    | failure =>
      exfalso
      simp [increasing_success_run, input_shares] at hincr
    | success d =>
      rw [increasing_success_run] at hincr
      simp only [input_shares] at hincr
      rw [Bool.and_eq_true] at hincr
      obtain ⟨hfst, hrest⟩ := hincr
      simp only [monitor_bitaxe_run]
      cases o with
      | none =>
        rw [monitor_step_first_eq interval discord s d ro hs]
        simp only [Nat.zero_add]
        exact ih (some (extract_status_fields d).shares) _ rfl hrest
      | some p =>
        have hlt : p < (extract_status_fields d).shares := of_decide_eq_true hfst
        have hne : (extract_status_fields d).shares ≠ p := by omega
        rw [monitor_step_newshares_eq interval discord s d ro p hs hne]
        simp only [Nat.zero_add]
        exact ih (some (extract_status_fields d).shares) _ rfl hrest

/-! ### The claims -/

/-- C1: for every poll cycle in which the status fetch succeeds and a
previous share count has been recorded from an earlier successful poll,
if the current sharesAccepted value equals the recorded previous value then
exactly one restart POST attempt is issued before the next wait, and if the
values differ (including a decrease) no restart attempt is issued. -/
theorem stall_detection_restart_iff (interval : Nat) (discord : Bool)
    (s : MonitorState) (inp : CycleInput) (p : Int) (d : PollData)
    (hprev : s.prev_shares = some p) (hpoll : inp.poll = PollOutcome.success d) :
    ((extract_status_fields d).shares = p →
      (monitor_bitaxe_step interval discord s inp).restartAttempts = 1) ∧
    ((extract_status_fields d).shares ≠ p →
      (monitor_bitaxe_step interval discord s inp).restartAttempts = 0) := by
  obtain ⟨poll, ro⟩ := inp
  cases poll with
  | failure => exact PollOutcome.noConfusion hpoll
  | success d2 =>
    obtain rfl : d = d2 := (PollOutcome.success.inj hpoll).symm
    constructor
    · intro heq
      cases ro with
      | status code =>
        by_cases h200 : code = 200
        · subst h200
          rw [monitor_step_stall_ok_eq interval discord s d p hprev heq]
        · rw [monitor_step_stall_failcode_eq interval discord s d p code hprev heq h200]
      | netError =>
        rw [monitor_step_stall_neterr_eq interval discord s d p hprev heq]
    · intro hne
      rw [monitor_step_newshares_eq interval discord s d ro p hprev hne]

theorem stall_detection_restart_iff_witness :
    ((⟨some 5, 0⟩ : MonitorState).prev_shares = some 5 ∧
      (extract_status_fields ⟨none, none, none, none, some 5, none⟩).shares = 5 ∧
      (monitor_bitaxe_step 60 true ⟨some 5, 0⟩
        ⟨PollOutcome.success ⟨none, none, none, none, some 5, none⟩,
          RestartOutcome.status 200⟩).restartAttempts = 1) ∧
    ((extract_status_fields ⟨none, none, none, none, some 7, none⟩).shares ≠ 5 ∧
      (monitor_bitaxe_step 60 true ⟨some 5, 0⟩
        ⟨PollOutcome.success ⟨none, none, none, none, some 7, none⟩,
          RestartOutcome.status 200⟩).restartAttempts = 0) :=
  ⟨⟨rfl, by decide,
    (stall_detection_restart_iff 60 true ⟨some 5, 0⟩
      ⟨PollOutcome.success ⟨none, none, none, none, some 5, none⟩,
        RestartOutcome.status 200⟩ 5 ⟨none, none, none, none, some 5, none⟩
      rfl rfl).1 (by decide)⟩,
   ⟨by decide,
    (stall_detection_restart_iff 60 true ⟨some 5, 0⟩
      ⟨PollOutcome.success ⟨none, none, none, none, some 7, none⟩,
        RestartOutcome.status 200⟩ 5 ⟨none, none, none, none, some 7, none⟩
      rfl rfl).2 (by decide)⟩⟩

/-- C2: on the very first successful poll (no previous share count
recorded), the loop records the observed share count, emits the
informational log line, and issues no restart attempt, whatever the share
value (including 0). -/
theorem first_poll_records_shares_no_restart (interval : Nat) (discord : Bool)
    (s : MonitorState) (inp : CycleInput) (d : PollData)
    (hprev : s.prev_shares = none) (hpoll : inp.poll = PollOutcome.success d) :
    (monitor_bitaxe_step interval discord s inp).restartAttempts = 0 ∧
    (monitor_bitaxe_step interval discord s inp).state.prev_shares =
      some (extract_status_fields d).shares ∧
    Event.initialLog ∈ (monitor_bitaxe_step interval discord s inp).events := by
  obtain ⟨poll, ro⟩ := inp
  cases poll with
  | failure => exact PollOutcome.noConfusion hpoll
  | success d2 =>
    obtain rfl : d = d2 := (PollOutcome.success.inj hpoll).symm
    rw [monitor_step_first_eq interval discord s d ro hprev]
    refine ⟨rfl, rfl, ?_⟩
    simp

theorem first_poll_records_shares_no_restart_witness :
    (monitor_bitaxe_step 60 true monitor_bitaxe_init
      ⟨PollOutcome.success ⟨none, none, none, none, some 0, none⟩,
        RestartOutcome.netError⟩).restartAttempts = 0 ∧
    (monitor_bitaxe_step 60 true monitor_bitaxe_init
      ⟨PollOutcome.success ⟨none, none, none, none, some 0, none⟩,
        RestartOutcome.netError⟩).state.prev_shares =
      some (extract_status_fields ⟨none, none, none, none, some 0, none⟩).shares ∧
    Event.initialLog ∈ (monitor_bitaxe_step 60 true monitor_bitaxe_init
      ⟨PollOutcome.success ⟨none, none, none, none, some 0, none⟩,
        RestartOutcome.netError⟩).events :=
  first_poll_records_shares_no_restart 60 true monitor_bitaxe_init
    ⟨PollOutcome.success ⟨none, none, none, none, some 0, none⟩,
      RestartOutcome.netError⟩ ⟨none, none, none, none, some 0, none⟩ rfl rfl

/-- C3: starting from the initial loop state, over any sequence of
successful polls whose reported share counts strictly increase from each
cycle to the next, the loop never issues a restart POST. -/
theorem increasing_shares_no_restart (interval : Nat) (discord : Bool)
    (inputs : List CycleInput)
    (hincr : increasing_success_run none inputs = true) :
    (monitor_bitaxe_run interval discord monitor_bitaxe_init inputs).2 = 0 :=
  increasing_run_no_restart_aux interval discord inputs none monitor_bitaxe_init
    rfl hincr

theorem increasing_shares_no_restart_witness :
    increasing_success_run none
      [⟨PollOutcome.success ⟨none, none, none, none, some 1, none⟩, RestartOutcome.netError⟩,
       ⟨PollOutcome.success ⟨none, none, none, none, some 2, none⟩, RestartOutcome.netError⟩,
       ⟨PollOutcome.success ⟨none, none, none, none, some 3, none⟩, RestartOutcome.netError⟩] =
      true ∧
    (monitor_bitaxe_run 60 true monitor_bitaxe_init
      [⟨PollOutcome.success ⟨none, none, none, none, some 1, none⟩, RestartOutcome.netError⟩,
       ⟨PollOutcome.success ⟨none, none, none, none, some 2, none⟩, RestartOutcome.netError⟩,
       ⟨PollOutcome.success ⟨none, none, none, none, some 3, none⟩, RestartOutcome.netError⟩]).2 =
      0 :=
  ⟨by decide,
   increasing_shares_no_restart 60 true
     [⟨PollOutcome.success ⟨none, none, none, none, some 1, none⟩, RestartOutcome.netError⟩,
      ⟨PollOutcome.success ⟨none, none, none, none, some 2, none⟩, RestartOutcome.netError⟩,
      ⟨PollOutcome.success ⟨none, none, none, none, some 3, none⟩, RestartOutcome.netError⟩]
     (by decide)⟩

/-- C4: a cycle whose status fetch fails leaves the loop state (in
particular the recorded previous-shares value) unchanged, so the next cycle
behaves exactly as it would have directly after the last successful poll. -/
theorem failed_poll_preserves_prev_shares (interval : Nat) (discord : Bool)
    (s : MonitorState) (inp : CycleInput) (hfail : inp.poll = PollOutcome.failure) :
    (monitor_bitaxe_step interval discord s inp).state = s ∧
    (∀ inp2 : CycleInput,
      monitor_bitaxe_step interval discord
          (monitor_bitaxe_step interval discord s inp).state inp2 =
        monitor_bitaxe_step interval discord s inp2) := by
  obtain ⟨poll, ro⟩ := inp
  cases poll with
  | failure =>
    have h1 : (monitor_bitaxe_step interval discord s
        ⟨PollOutcome.failure, ro⟩).state = s := rfl
    exact ⟨h1, fun inp2 => by rw [h1]⟩
  | success d => exact PollOutcome.noConfusion hfail

theorem failed_poll_preserves_prev_shares_witness :
    (monitor_bitaxe_step 60 true ⟨some 100, 2⟩
      ⟨PollOutcome.failure, RestartOutcome.netError⟩).state = ⟨some 100, 2⟩ :=
  (failed_poll_preserves_prev_shares 60 true ⟨some 100, 2⟩
    ⟨PollOutcome.failure, RestartOutcome.netError⟩ rfl).1

/-- C5: in every iteration, the wait before the next poll is 10 time units
when the status fetch failed and exactly the configured interval when the
poll succeeded (stall handled or not); the wait_after_restart flag is false
at the end of every iteration, so the alternate 60-unit wait is never
taken. -/
theorem cycle_wait_policy (interval : Nat) (discord : Bool)
    (s : MonitorState) (inp : CycleInput) :
    (inp.poll = PollOutcome.failure →
      (monitor_bitaxe_step interval discord s inp).wait = 10) ∧
    (∀ d : PollData, inp.poll = PollOutcome.success d →
      (monitor_bitaxe_step interval discord s inp).wait = interval) ∧
    (monitor_bitaxe_step interval discord s inp).wait_after_restart = false := by
  obtain ⟨poll, ro⟩ := inp
  cases poll with
  | failure =>
    exact ⟨fun _ => rfl, fun d h => PollOutcome.noConfusion h, rfl⟩
  | success d =>
    exact ⟨fun h => PollOutcome.noConfusion h, fun d2 _ => rfl, rfl⟩

theorem cycle_wait_policy_witness :
    (monitor_bitaxe_step 30 false ⟨some 5, 0⟩
      ⟨PollOutcome.failure, RestartOutcome.netError⟩).wait = 10 ∧
    (monitor_bitaxe_step 30 false ⟨some 5, 0⟩
      ⟨PollOutcome.success ⟨none, none, none, none, some 5, none⟩,
        RestartOutcome.status 200⟩).wait = 30 :=
  ⟨(cycle_wait_policy 30 false ⟨some 5, 0⟩
      ⟨PollOutcome.failure, RestartOutcome.netError⟩).1 rfl,
   (cycle_wait_policy 30 false ⟨some 5, 0⟩
      ⟨PollOutcome.success ⟨none, none, none, none, some 5, none⟩,
        RestartOutcome.status 200⟩).2.1 ⟨none, none, none, none, some 5, none⟩ rfl⟩

/-- C6: every line handed to log_output goes to stdout as given (colors
included); when a log file is configured the appended content is the line
with every match of the ANSI escape pattern removed, followed by a newline,
and appending is the only file effect; on lines whose ESC characters all
begin complete color sequences (every line the monitor builds), the
appended line contains no ESC character at all, and a line with no ESC
characters is appended verbatim. -/
theorem log_output_console_and_file (line : List Char) (lf : Bool) :
    (log_output line lf).stdout = line ∧
    (log_output line lf).fileAppend =
      (if lf then some (ansi_escape_sub line ++ ['\n']) else none) ∧
    (ansi_well_formed line = true → '\x1b' ∉ ansi_escape_sub line) ∧
    ('\x1b' ∉ line → ansi_escape_sub line = line) :=
  ⟨rfl, rfl, fun h => ansi_sub_no_esc line h, fun h => ansi_sub_of_no_esc line h⟩

theorem log_output_console_and_file_witness :
    ansi_well_formed ("\x1b[92m[now]\x1b[0m Host: \x1b[96mbitaxe\x1b[0m".toList) =
      true ∧
    '\x1b' ∉ ansi_escape_sub
      ("\x1b[92m[now]\x1b[0m Host: \x1b[96mbitaxe\x1b[0m".toList) :=
  ⟨by decide,
   (log_output_console_and_file
      ("\x1b[92m[now]\x1b[0m Host: \x1b[96mbitaxe\x1b[0m".toList) true).2.2.1
     (by decide)⟩

/-- C7: a webhook delivery failure never propagates to the caller: for
every outcome of the POST the call returns normally (never an error), and
when the POST raised, the failure was logged locally by a printed warning. -/
theorem webhook_failure_never_raises :
    ∀ o : PostOutcome,
      (∃ printed : List String, send_discord_alert o = Except.ok printed) ∧
      (∀ e : String, o = PostOutcome.raised e →
        send_discord_alert o = Except.ok ["Discord alert failed: " ++ e]) := by
  intro o
  cases o with
  | resp code => exact ⟨⟨[], rfl⟩, fun e h => PostOutcome.noConfusion h⟩
  | raised msg =>
    refine ⟨⟨["Discord alert failed: " ++ msg], rfl⟩, fun e h => ?_⟩
    obtain rfl : msg = e := PostOutcome.raised.inj h
    rfl

theorem webhook_failure_never_raises_witness :
    send_discord_alert (PostOutcome.raised "timeout") =
      Except.ok ["Discord alert failed: " ++ "timeout"] :=
  (webhook_failure_never_raises (PostOutcome.raised "timeout")).2 "timeout" rfl

/-- C8: on a detected stall, if the restart POST answers with status 200
the restart counter is incremented by exactly one and the success line is
logged and (with a webhook configured) notified; on any other status the
counter is unchanged and the failure line with the code is logged and
notified; on a network error the counter is unchanged and the error line is
logged and notified; in all three cases the loop continues to the normal
interval wait. -/
theorem restart_outcome_handling (interval : Nat) (discord : Bool)
    (s : MonitorState) (inp : CycleInput) (d : PollData) (p : Int)
    (hprev : s.prev_shares = some p) (hpoll : inp.poll = PollOutcome.success d)
    (hstall : (extract_status_fields d).shares = p) :
    (inp.restartResult = RestartOutcome.status 200 →
      (monitor_bitaxe_step interval discord s inp).state.restart_count =
        s.restart_count + 1 ∧
      Event.restartOkLog ∈ (monitor_bitaxe_step interval discord s inp).events ∧
      (discord = true →
        Event.alertRestartOk ∈ (monitor_bitaxe_step interval discord s inp).events)) ∧
    (∀ code : Nat, inp.restartResult = RestartOutcome.status code → code ≠ 200 →
      (monitor_bitaxe_step interval discord s inp).state.restart_count =
        s.restart_count ∧
      Event.restartFailLog code ∈ (monitor_bitaxe_step interval discord s inp).events ∧
      (discord = true →
        Event.alertRestartFail code ∈
          (monitor_bitaxe_step interval discord s inp).events)) ∧
    (inp.restartResult = RestartOutcome.netError →
      (monitor_bitaxe_step interval discord s inp).state.restart_count =
        s.restart_count ∧
      Event.restartErrLog ∈ (monitor_bitaxe_step interval discord s inp).events ∧
      (discord = true →
        Event.alertRestartErr ∈ (monitor_bitaxe_step interval discord s inp).events)) ∧
    (monitor_bitaxe_step interval discord s inp).wait = interval := by
  obtain ⟨poll, ro⟩ := inp
  cases poll with
  | failure => exact PollOutcome.noConfusion hpoll
  | success d2 =>
    obtain rfl : d = d2 := (PollOutcome.success.inj hpoll).symm
    refine ⟨?_, ?_, ?_, ?_⟩
    · intro h200
      obtain rfl : ro = RestartOutcome.status 200 := h200
      rw [monitor_step_stall_ok_eq interval discord s d p hprev hstall]
      refine ⟨rfl, ?_, fun hd => ?_⟩ <;> cases discord <;> simp_all
    · intro code hcode hne
      obtain rfl : ro = RestartOutcome.status code := hcode
      rw [monitor_step_stall_failcode_eq interval discord s d p code hprev hstall hne]
      refine ⟨rfl, ?_, fun hd => ?_⟩ <;> cases discord <;> simp_all
    · intro herr
      obtain rfl : ro = RestartOutcome.netError := herr
      rw [monitor_step_stall_neterr_eq interval discord s d p hprev hstall]
      refine ⟨rfl, ?_, fun hd => ?_⟩ <;> cases discord <;> simp_all
    · cases ro with
      | status code =>
        by_cases h200 : code = 200
        · subst h200
          rw [monitor_step_stall_ok_eq interval discord s d p hprev hstall]
        · rw [monitor_step_stall_failcode_eq interval discord s d p code hprev hstall
            h200]
      | netError =>
        rw [monitor_step_stall_neterr_eq interval discord s d p hprev hstall]

theorem restart_outcome_handling_witness :
    (monitor_bitaxe_step 60 true ⟨some 9, 4⟩
      ⟨PollOutcome.success ⟨none, none, none, none, some 9, none⟩,
        RestartOutcome.status 200⟩).state.restart_count = 4 + 1 ∧
    Event.restartOkLog ∈ (monitor_bitaxe_step 60 true ⟨some 9, 4⟩
      ⟨PollOutcome.success ⟨none, none, none, none, some 9, none⟩,
        RestartOutcome.status 200⟩).events ∧
    (true = true → Event.alertRestartOk ∈ (monitor_bitaxe_step 60 true ⟨some 9, 4⟩
      ⟨PollOutcome.success ⟨none, none, none, none, some 9, none⟩,
        RestartOutcome.status 200⟩).events) :=
  (restart_outcome_handling 60 true ⟨some 9, 4⟩
    ⟨PollOutcome.success ⟨none, none, none, none, some 9, none⟩,
      RestartOutcome.status 200⟩ ⟨none, none, none, none, some 9, none⟩ 9
    rfl rfl (by decide)).1 rfl

/-- C9: for every successful poll, a missing hashRate field yields the
unknown sentinel, a missing sharesAccepted yields 0, and missing temp or
vrTemp fields yield the unknown sentinel; the resulting status line is
still emitted normally. -/
theorem missing_fields_use_defaults (interval : Nat) (discord : Bool)
    (s : MonitorState) (inp : CycleInput) (d : PollData)
    (hpoll : inp.poll = PollOutcome.success d) :
    (d.hashRate = none → (extract_status_fields d).hashrate = none) ∧
    (d.sharesAccepted = none → (extract_status_fields d).shares = 0) ∧
    (d.temp = none → (extract_status_fields d).asic_temp = none) ∧
    (d.vrTemp = none → (extract_status_fields d).vr_temp = none) ∧
    Event.statusLine (extract_status_fields d) s.restart_count ∈
      (monitor_bitaxe_step interval discord s inp).events := by
  obtain ⟨poll, ro⟩ := inp
  cases poll with
  | failure => exact PollOutcome.noConfusion hpoll
  | success d2 =>
    obtain rfl : d = d2 := (PollOutcome.success.inj hpoll).symm
    refine ⟨?_, ?_, ?_, ?_, ?_⟩
    · intro h; simp [extract_status_fields, h]
    · intro h; simp [extract_status_fields, h]
    · intro h; simp [extract_status_fields, h]
    · intro h; simp [extract_status_fields, h]
    · show Event.statusLine (extract_status_fields d) s.restart_count ∈
        [Event.statusLine (extract_status_fields d) s.restart_count] ++ _
      exact List.mem_append_left _ (List.mem_singleton_self _)

theorem missing_fields_use_defaults_witness :
    ((⟨none, none, none, none, none, none⟩ : PollData).hashRate = none →
      (extract_status_fields ⟨none, none, none, none, none, none⟩).hashrate = none) ∧
    ((⟨none, none, none, none, none, none⟩ : PollData).sharesAccepted = none →
      (extract_status_fields ⟨none, none, none, none, none, none⟩).shares = 0) ∧
    ((⟨none, none, none, none, none, none⟩ : PollData).temp = none →
      (extract_status_fields ⟨none, none, none, none, none, none⟩).asic_temp = none) ∧
    ((⟨none, none, none, none, none, none⟩ : PollData).vrTemp = none →
      (extract_status_fields ⟨none, none, none, none, none, none⟩).vr_temp = none) ∧
    Event.statusLine (extract_status_fields ⟨none, none, none, none, none, none⟩)
        (monitor_bitaxe_init.restart_count) ∈
      (monitor_bitaxe_step 60 true monitor_bitaxe_init
        ⟨PollOutcome.success ⟨none, none, none, none, none, none⟩,
          RestartOutcome.netError⟩).events :=
  missing_fields_use_defaults 60 true monitor_bitaxe_init
    ⟨PollOutcome.success ⟨none, none, none, none, none, none⟩,
      RestartOutcome.netError⟩ ⟨none, none, none, none, none, none⟩ rfl

/-- C10: if two consecutive successful poll responses both omit the
sharesAccepted field, both are read as share count 0, so the second cycle
declares a stall and issues a restart POST, whatever the loop state was
before the first of the two cycles. -/
theorem missing_shares_field_stalls (interval : Nat) (discord : Bool)
    (s : MonitorState) (d1 d2 : PollData) (r1 r2 : RestartOutcome)
    (h1 : d1.sharesAccepted = none) (h2 : d2.sharesAccepted = none) :
    (monitor_bitaxe_step interval discord
        (monitor_bitaxe_step interval discord s
          ⟨PollOutcome.success d1, r1⟩).state
        ⟨PollOutcome.success d2, r2⟩).restartAttempts = 1 ∧
    Event.stallLog ∈ (monitor_bitaxe_step interval discord
        (monitor_bitaxe_step interval discord s
          ⟨PollOutcome.success d1, r1⟩).state
        ⟨PollOutcome.success d2, r2⟩).events := by
  have hs1 : (monitor_bitaxe_step interval discord s
      ⟨PollOutcome.success d1, r1⟩).state.prev_shares = some 0 := by
    have hshares1 : (extract_status_fields d1).shares = 0 := by
      simp [extract_status_fields, h1]
    obtain ⟨ps, rc⟩ := s
    cases ps with
    | none => simpa [monitor_step_first_eq interval discord ⟨none, rc⟩ d1 r1 rfl]
        using congrArg some hshares1
    | some q =>
      by_cases hq : (extract_status_fields d1).shares = q
      · cases r1 with
        | status code =>
          by_cases h200 : code = 200
          · subst h200
            rw [monitor_step_stall_ok_eq interval discord ⟨some q, rc⟩ d1 q rfl hq]
            simpa using congrArg some hshares1
          · rw [monitor_step_stall_failcode_eq interval discord ⟨some q, rc⟩ d1 q code
              rfl hq h200]
            simpa using congrArg some hshares1
        | netError =>
          rw [monitor_step_stall_neterr_eq interval discord ⟨some q, rc⟩ d1 q rfl hq]
          simpa using congrArg some hshares1
      · rw [monitor_step_newshares_eq interval discord ⟨some q, rc⟩ d1 r1 q rfl hq]
        simpa using congrArg some hshares1
  have hshares2 : (extract_status_fields d2).shares = 0 := by
    simp [extract_status_fields, h2]
  cases r2 with
  | status code =>
    by_cases h200 : code = 200
    · subst h200
      rw [monitor_step_stall_ok_eq interval discord _ d2 0 hs1 hshares2]
      refine ⟨rfl, ?_⟩
      cases discord <;> simp
    · rw [monitor_step_stall_failcode_eq interval discord _ d2 0 code hs1 hshares2 h200]
      refine ⟨rfl, ?_⟩
      cases discord <;> simp
  | netError =>
    rw [monitor_step_stall_neterr_eq interval discord _ d2 0 hs1 hshares2]
    refine ⟨rfl, ?_⟩
    cases discord <;> simp

theorem missing_shares_field_stalls_witness :
    (monitor_bitaxe_step 60 true
        (monitor_bitaxe_step 60 true monitor_bitaxe_init
          ⟨PollOutcome.success ⟨none, none, none, none, none, none⟩,
            RestartOutcome.status 200⟩).state
        ⟨PollOutcome.success ⟨none, none, none, none, none, none⟩,
          RestartOutcome.status 200⟩).restartAttempts = 1 ∧
    Event.stallLog ∈ (monitor_bitaxe_step 60 true
        (monitor_bitaxe_step 60 true monitor_bitaxe_init
          ⟨PollOutcome.success ⟨none, none, none, none, none, none⟩,
            RestartOutcome.status 200⟩).state
        ⟨PollOutcome.success ⟨none, none, none, none, none, none⟩,
          RestartOutcome.status 200⟩).events :=
  missing_shares_field_stalls 60 true monitor_bitaxe_init
    ⟨none, none, none, none, none, none⟩ ⟨none, none, none, none, none, none⟩
    (RestartOutcome.status 200) (RestartOutcome.status 200) rfl rfl

end BitaxeMonitor
